import Mathlib

/-!
Verification of the backup/restore and CSV-import subsystem of the ERP
front-end (BackupRestore.tsx, ImportTransactionsDialog, ImportSalesOrdersDialog,
useTransactions.createTransaction, TransactionFormDialog.handleSubmit).

Records are shallowly embedded as association lists of string-or-null values;
the DataStore collaborator is embedded as an in-memory list of stored rows
whose write operations succeed (the fault-injection paths of the source, such
as the unique-violation retry after a failed insert, are not exercised by the
properties proved here).  Numeric CSV values are embedded as rationals.
-/

deriving instance DecidableEq for Except

/-- A field value: a string or SQL/JSON null (JS null and undefined collapse
to null once a field is materialised in a record). -/
abbrev Val := Option String

/-- JS truthiness for a field value: null/undefined and the empty string are
falsy, every other string is truthy. -/
def truthy : Val → Bool
  | none => false
  | some s => s ≠ ""

/-- The string content of a value (empty for null); only consulted after a
truthiness check, mirroring how the source uses a value it tested. -/
def valStr : Val → String
  | none => ""
  | some s => s

/-- A record payload: an ordered field-name/value mapping (JS object). -/
abbrev Row := List (String × Val)

/-- Value of a field in a row: `some v` when the key is present (first
occurrence wins, as in a JS object no key occurs twice). -/
def Row.get : Row → String → Option Val
  | [], _ => none
  | kv :: rest, k => if kv.1 == k then some kv.2 else Row.get rest k

/-- JS property read `r[k]`: an absent key reads as undefined, which the
source only ever uses through truthiness, so it collapses to null. -/
def fieldVal (r : Row) (k : String) : Val :=
  match r.get k with
  | some v => v
  | none => none

/-- JS property write `r[k] = v` for a key already present in the row. -/
def setField (r : Row) (k : String) (v : Val) : Row :=
  r.map (fun kv => if kv.1 == k then (kv.1, v) else kv)

/-- Write the field if present, append it otherwise (JS property write). -/
def setOrAdd (r : Row) (k : String) (v : Val) : Row :=
  if (r.get k).isSome then setField r k v else r ++ [(k, v)]

/-- Apply every field of `payload` onto `base` (the semantics of an update
call: listed columns are written, unlisted columns keep their value). -/
def overrideFields (base payload : Row) : Row :=
  payload.foldl (fun acc kv => setOrAdd acc kv.1 kv.2) base

/-! ## Backup/restore static configuration (BackupRestore.tsx) -/

/-- The fixed, dependency-ordered collection list (`tables`). -/
def tables : List String :=
  ["accounts", "customers", "vendors", "product_categories", "products",
   "employees", "sales_orders", "sales_line_items", "purchase_orders",
   "purchase_line_items", "transactions", "stock_movements", "payroll",
   "activity_logs"]

/-- `foreignKeyFields`: fields removed from each table before write
(lookup misses yield the empty list, like the source `|| []`). -/
def foreignKeyFields (t : String) : List String :=
  if t = "customers" then ["created_by"]
  else if t = "vendors" then ["created_by"]
  else if t = "products" then ["created_by", "supplier_id", "category_id"]
  else if t = "product_categories" then ["created_by", "parent_id"]
  else if t = "sales_orders" then ["created_by"]
  else if t = "sales_line_items" then []
  else if t = "purchase_orders" then ["created_by"]
  else if t = "purchase_line_items" then []
  else if t = "transactions" then ["created_by", "account_from", "account_to"]
  else if t = "stock_movements" then ["created_by"]
  else if t = "employees" then ["department_id", "created_by"]
  else if t = "payroll" then ["created_by"]
  else if t = "activity_logs" then ["user_id"]
  else if t = "accounts" then ["parent_id", "created_by"]
  else []

/-- `optionalFkMapping`: optional foreign keys to their referenced tables. -/
def optionalFkMapping (k : String) : Option String :=
  if k = "category_id" then some "product_categories"
  else if k = "supplier_id" then some "vendors"
  else if k = "parent_id" then some "accounts"
  else if k = "account_from" then some "accounts"
  else if k = "account_to" then some "accounts"
  else none

/-- `tablesWithRequiredForeignKeys`: NOT NULL foreign keys per table. -/
def tablesWithRequiredForeignKeys (t : String) : List String :=
  if t = "stock_movements" then ["product_id"]
  else if t = "sales_orders" then ["customer_id"]
  else if t = "sales_line_items" then ["sale_id", "product_id"]
  else if t = "purchase_orders" then ["vendor_id"]
  else if t = "purchase_line_items" then ["purchase_order_id", "product_id"]
  else if t = "payroll" then ["employee_id"]
  else []

/-- The if/else chain resolving which table a required FK field references
(empty string when the field is not recognised, like the source). -/
def referencedTableOf (f : String) : String :=
  if f = "customer_id" then "customers"
  else if f = "vendor_id" then "vendors"
  else if f = "product_id" then "products"
  else if f = "sale_id" then "sales_orders"
  else if f = "purchase_order_id" then "purchase_orders"
  else if f = "employee_id" then "employees"
  else ""

/-- The if/else chain choosing the natural unique key for upsert
(empty string means: no unique field, plain insert). -/
def uniqueFieldOf (t : String) : String :=
  if t = "accounts" ∨ t = "customers" ∨ t = "vendors" then "code"
  else if t = "products" then "sku"
  else if t = "product_categories" then "name"
  else if t = "sales_orders" ∨ t = "purchase_orders" then "order_number"
  else if t = "employees" then "employee_number"
  else ""

/-! ## The run-scoped ID map (`idMappings`) -/

/-- The old-id to new-id map: entries keyed by (table, old id).  New entries
are prepended, so the first match is the most recent write, matching the
overwrite semantics of the JS nested objects. -/
abbrev IdMap := List ((String × String) × String)

/-- `idMappings[table] && idMappings[table][oldId]` (an absent table submap
and an absent key both read as a miss). -/
def idLookup (m : IdMap) (t o : String) : Option String :=
  (m.find? (fun e => e.1.1 == t && e.1.2 == o)).map (·.2)

/-! ## The per-record cleaning pipeline of handleRestore -/

/-- Drop `id`, `created_at`, `updated_at` (the destructuring into `rest`). -/
def stripMeta (r : Row) : Row :=
  r.filter (fun kv => !(kv.1 == "id" || kv.1 == "created_at" || kv.1 == "updated_at"))

/-- The `for (const [key, value] of Object.entries(rest))` loop building
`cleanRecord`: stripped foreign-key fields are skipped; a truthy value whose
key is in the optional FK map is rewritten through the ID map or set to
null; everything else is copied unchanged. -/
def cleanEntry (tbl : String) (m : IdMap) (kv : String × Val) : Option (String × Val) :=
  if (foreignKeyFields tbl).contains kv.1 then none
  else if truthy kv.2 then
    match optionalFkMapping kv.1 with
    | some refTbl =>
      match idLookup m refTbl (valStr kv.2) with
      | some newId => some (kv.1, some newId)
      | none => some (kv.1, (none : Val))
    | none => some kv
  else some kv

def cleanFields (tbl : String) (m : IdMap) (r : Row) : Row :=
  (stripMeta r).filterMap (cleanEntry tbl m)

/-- The required-foreign-key loop: each required field must be truthy and,
when its referencing table is recognised, resolvable through the ID map
(rewriting the field); any failure skips the whole record (`none`). -/
def remapRequired (m : IdMap) : List String → Row → Option Row
  | [], r => some r
  | f :: rest, r =>
    if truthy (fieldVal r f) then
      let oldFkId := valStr (fieldVal r f)
      let refTbl := referencedTableOf f
      if refTbl ≠ "" then
        match idLookup m refTbl oldFkId with
        | some newId => remapRequired m rest (setField r f (some newId))
        | none => none
      else remapRequired m rest r
    else none

/-! ## The DataStore and the per-record write of handleRestore -/

/-- A stored row of the DataStore: its table, platform-assigned id, and
column values. -/
structure StoredRow where
  table : String
  id : String
  fields : Row
deriving DecidableEq

/-- `.select(id).eq(field, value).maybeSingle()`: no match is a clean miss,
one match is returned, several matches are an error (which the caller
treats like a miss, falling through to the insert branch). -/
def maybeSingleBy (rows : List StoredRow) (tbl f v : String) : Except Unit (Option StoredRow) :=
  match rows.filter (fun sr => sr.table == tbl && fieldVal sr.fields f == some v) with
  | [] => .ok none
  | [sr] => .ok (some sr)
  | _ => .error ()

/-- `.update(payload).eq(id, existing.id)`: overwrite the listed columns of
the row with that id. -/
def updateRow (rows : List StoredRow) (rid : String) (payload : Row) : List StoredRow :=
  rows.map (fun sr => if sr.id == rid then { sr with fields := overrideFields sr.fields payload } else sr)

/-- State threaded through the restore loop: the store, the fresh-id
counter, the run-scoped ID map, and the per-table failure/success counters. -/
structure RestoreState where
  store : List StoredRow
  nextId : Nat
  idMap : IdMap
  tableErrors : Nat
  restored : Nat
deriving DecidableEq

/-- Platform-assigned id for the n-th insert of the run. -/
def freshId (n : Nat) : String := "new-" ++ toString n

/-- Bookkeeping after a successful insert or update: record the old-id to
new-id mapping when the original record had a truthy id, and count the
record as restored (`successfulInserts.push`). -/
def recordSuccess (tbl : String) (st : RestoreState) (store' : List StoredRow)
    (next' : Nat) (oldId : Val) (newId : String) : RestoreState :=
  { store := store', nextId := next',
    idMap := if truthy oldId then ((tbl, valStr oldId), newId) :: st.idMap else st.idMap,
    tableErrors := st.tableErrors, restored := st.restored + 1 }

/-- Plain insert of a cleaned payload (the DataStore assigns a fresh id). -/
def insRecord (tbl : String) (st : RestoreState) (c2 : Row) (oldId : Val) : RestoreState :=
  recordSuccess tbl st (st.store ++ [⟨tbl, freshId st.nextId, c2⟩]) (st.nextId + 1) oldId (freshId st.nextId)

/-- One iteration of the `for (const record of batch)` loop of handleRestore:
clean the payload, enforce required foreign keys, then upsert by the natural
unique key when one is configured and present, else plain insert. -/
def restoreRecord (tbl : String) (st : RestoreState) (r : Row) : RestoreState :=
  let oldId := fieldVal r "id"
  let clean := cleanFields tbl st.idMap r
  if clean.isEmpty then st
  else
    match remapRequired st.idMap (tablesWithRequiredForeignKeys tbl) clean with
    | none => { st with tableErrors := st.tableErrors + 1 }
    | some c2 =>
      let u := uniqueFieldOf tbl
      if u ≠ "" && truthy (fieldVal c2 u) then
        match maybeSingleBy st.store tbl u (valStr (fieldVal c2 u)) with
        | .ok (some existing) =>
          recordSuccess tbl st (updateRow st.store existing.id c2) st.nextId oldId existing.id
        | _ => insRecord tbl st c2 oldId
      else insRecord tbl st c2 oldId

/-- The whole per-table record loop, in original snapshot order. -/
def restoreTable (tbl : String) (st : RestoreState) (data : List Row) : RestoreState :=
  data.foldl (restoreRecord tbl) st

/-! ## Export (createBackup) -/

/-- The export loop of createBackup over an abstract per-collection fetch:
a fetch error records an empty sequence for that collection and the loop
continues, so the assembled document has one entry per fixed table. -/
def createBackupData (fetchAll : String → Except String (List Row)) : List (String × List Row) :=
  tables.map (fun t => (t, match fetchAll t with | .ok d => d | .error _ => []))

/-! ## Text and number primitives of the CSV parsers -/

/-- JS whitespace for trimming (the characters occurring in CSV text). -/
def wsChar (c : Char) : Bool := c = ' ' || c = '\t' || c = '\n' || c = '\r'

/-- JS String.prototype.trim, structurally over the character list. -/
def trimStr (s : String) : String :=
  String.mk (((s.data.dropWhile wsChar).reverse.dropWhile wsChar).reverse)

/-- JS String.prototype.toLowerCase (the inputs are ASCII). -/
def lowerStr (s : String) : String :=
  String.mk (s.data.map Char.toLower)

/-- Split a character list at every separator occurrence. -/
def splitCharList (sep : Char) : List Char → List (List Char)
  | [] => [[]]
  | c :: rest =>
    let groups := splitCharList sep rest
    if c = sep then [] :: groups
    else
      match groups with
      | g :: gs => (c :: g) :: gs
      | [] => [[c]]

/-- JS String.prototype.split with a one-character separator (the source
only ever splits on newline, comma, semicolon, pipe and dash). -/
def splitChar (sep : Char) (s : String) : List String :=
  (splitCharList sep s.data).map String.mk

/-- The pattern list starts the text list. -/
def isPrefixList : List Char → List Char → Bool
  | [], _ => true
  | _ :: _, [] => false
  | p :: ps, c :: cs => p == c && isPrefixList ps cs

/-- The pattern list occurs somewhere inside the text list. -/
def containsSub (pat : List Char) : List Char → Bool
  | [] => pat.isEmpty
  | c :: cs => isPrefixList pat (c :: cs) || containsSub pat cs

/-- JS String.prototype.includes. -/
def containsStr (hay pat : String) : Bool :=
  containsSub pat.data hay.data


/-! ## Reference entities loaded by the import dialogs -/

/-- An account as loaded for the transaction form and CSV import. -/
structure Account where
  id : String
  name : String
  code : String
  parentId : Option String
  status : String
deriving DecidableEq

/-- A customer as loaded for the sales-orders import. -/
structure Customer where
  id : String
  name : String
deriving DecidableEq

/-- A product as loaded for the sales-orders import. -/
structure Product where
  id : String
  name : String
  sku : String
deriving DecidableEq

/-- Truthiness of an optional parent reference (`if (acc.parentId)`): a
present, non-empty string. -/
def parentTruthy : Option String → Bool
  | none => false
  | some s => s ≠ ""

/-- `childrenMap.has(id)` over the given account list: some account with a
truthy parent reference names this id as its parent. -/
def hasChildrenIn (l : List Account) (id : String) : Bool :=
  l.any (fun b => parentTruthy b.parentId && b.parentId == some id)

/-- `accountByName.get(key)`: a JS Map built by iterating the list and
overwriting, so the last account with that lowercased name wins. -/
def acctByName (l : List Account) (key : String) : Option Account :=
  l.reverse.find? (fun a => lowerStr a.name == key)

/-- `accountByCode.get(key)`: only accounts with a truthy code are indexed;
last writer wins. -/
def acctByCode (l : List Account) (key : String) : Option Account :=
  l.reverse.find? (fun a => a.code ≠ "" && lowerStr a.code == key)

/-- `customerByName.get(key)`: last customer with that lowercased name. -/
def customerLookup (l : List Customer) (key : String) : Option Customer :=
  l.reverse.find? (fun c => lowerStr c.name == key)

/-- `productByName.get(key)`: the map holds both the lowercased name and the
lowercased sku of every product, later products overwriting earlier ones,
so the last product matching on either key wins. -/
def productLookup (l : List Product) (key : String) : Option Product :=
  l.reverse.find? (fun p => lowerStr p.name == key || lowerStr p.sku == key)

/-! ## Numeric primitives -/

/-- Numeric value of a digit string (most significant first). -/
def digitsToNat (l : List Char) : Nat :=
  l.foldl (fun n c => n * 10 + (c.toNat - '0'.toNat)) 0

/-- JS parseInt (radix 10) on an already-trimmed string: optional sign, then
the longest digit prefix; no digits means NaN (`none`).  The hexadecimal and
whitespace handling of the builtin is outside the inputs this code feeds it. -/
def parseIntJS (s : String) : Option Int :=
  let (sign, cs) : Int × List Char :=
    match s.data with
    | '-' :: rest => (-1, rest)
    | '+' :: rest => (1, rest)
    | cs => (1, cs)
  let ds := cs.takeWhile Char.isDigit
  if ds.isEmpty then none else some (sign * (digitsToNat ds : Int))

/-- JS parseFloat on an already-trimmed string, embedded over the rationals:
optional sign, longest decimal-literal prefix (integer and/or fraction
digits); no leading numeric prefix means NaN (`none`).  Exponents and the
rounding of binary floating point are outside the values this code feeds it. -/
def parseFloatQ (s : String) : Option ℚ :=
  let (sign, cs) : ℚ × List Char :=
    match s.data with
    | '-' :: rest => (-1, rest)
    | '+' :: rest => (1, rest)
    | cs => (1, cs)
  let intPart := cs.takeWhile Char.isDigit
  let rest := cs.dropWhile Char.isDigit
  let fracPart :=
    match rest with
    | '.' :: r => r.takeWhile Char.isDigit
    | _ => []
  if intPart.isEmpty && fracPart.isEmpty then none
  else some (sign * ((digitsToNat intPart : ℚ) + (digitsToNat fracPart : ℚ) / ((10 : ℚ) ^ fracPart.length)))

/-- Modelled from the spec: the platform date parser used by the dialogs
(the JS Date constructor followed by toISOString) is an external builtin;
the spec asks for a calendar-date string, rejected when unparsable.  The
model accepts ISO `YYYY-MM-DD` strings with an in-range month and day and
returns them unchanged (their normalised form), rejecting everything else. -/
def parseDateJS (s : String) : Option String :=
  match splitChar '-' s with
  | [y, m, d] =>
    if y.length == 4 && m.length == 2 && d.length == 2
        && y.data.all Char.isDigit && m.data.all Char.isDigit && d.data.all Char.isDigit
        && 1 ≤ digitsToNat m.data && digitsToNat m.data ≤ 12
        && 1 ≤ digitsToNat d.data && digitsToNat d.data ≤ 31
    then some s else none
  | _ => none

/-- `v.replace(/^"|"$/g, \x27\x27)`: strip one leading and one trailing
double quote. -/
def stripQuotes (s : String) : String :=
  let cs1 := match s.data with
    | '"' :: rest => rest
    | cs => cs
  String.mk (if cs1.getLast? == some '"' then cs1.dropLast else cs1)

/-- `headers.findIndex(h => h === a || h === b || ...)`. -/
def findHeaderIdx (headers : List String) (names : List String) : Option Nat :=
  headers.findIdx? (fun h => names.contains h)

/-- `values[idx]` guarded by `idx >= 0`; an out-of-range read is undefined,
which the source only uses through truthiness, so it reads as empty. -/
def cellAt (values : List String) (idx : Option Nat) : String :=
  match idx with
  | some j => values.getD j ""
  | none => ""

/-! ## Sales-orders import: nested line items (ImportSalesOrdersDialog) -/

/-- A parsed sales-order line item (the source LineItem shape; numbers are
embedded as rationals, the parseInt quantity as an integer). -/
structure LineItem where
  id : String
  productId : String
  productName : String
  sku : String
  quantity : Int
  unitPrice : ℚ
  discount : ℚ
  tax : ℚ
  total : ℚ
deriving DecidableEq

/-- The per-line-item error prefix of the source messages. -/
def lineItemErr (i : Nat) (msg : String) : String :=
  "Line item " ++ toString (i + 1) ++ ": " ++ msg

/-- Modelled from the spec: lineItemSchema (src lib/validations/sale) is not
among the repository sources; the spec re-validates each sub-record with the
same numeric rules as the field checks (positive quantity, positive unit
price, nonnegative discount and total), reported as path/message pairs. -/
def lineItemSchemaErrors (it : LineItem) : List String :=
  (if it.quantity ≤ 0 then ["quantity - Quantity must be positive"] else []) ++
  (if it.unitPrice ≤ 0 then ["unitPrice - Unit price must be positive"] else []) ++
  (if it.discount < 0 then ["discount - Discount cannot be negative"] else []) ++
  (if it.total < 0 then ["total - Total cannot be negative"] else [])

/-- The line item assembled from the validated sub-fields: the synthetic id
joins the item index with the platform clock reading (Date.now), the
subtotal is quantity times unit price, and the total is clamped at zero. -/
def mkLineItem (now i : Nat) (product : Product) (quantity : Int)
    (unitPrice discount : ℚ) : LineItem :=
  { id := toString i ++ "-" ++ toString now, productId := product.id,
    productName := product.name, sku := product.sku,
    quantity := quantity, unitPrice := unitPrice,
    discount := discount, tax := 0,
    total := max 0 ((quantity : ℚ) * unitPrice - discount) }

/-- The body of the line-item loop, applied to the pipe-split, trimmed parts
of one sub-record; `now` is the clock reading the source takes via the
platform clock when it mints the synthetic item id. -/
def parseItemParts (ps : List Product) (now i : Nat) (parts : List String) :
    Option LineItem × List String :=
  if parts.length < 3 then
    (none, [lineItemErr i "Invalid format. Expected: productName|quantity|unitPrice|discount"])
  else
    let productName := parts.getD 0 ""
    let qtyStr := parts.getD 1 ""
    let priceStr := parts.getD 2 ""
    let discountStr := parts.getD 3 "0"
    if productName = "" then (none, [lineItemErr i "Product name is required"])
    else
      match productLookup ps (lowerStr productName) with
      | none => (none, [lineItemErr i ("Product \"" ++ productName ++ "\" not found")])
      | some product =>
        match parseIntJS qtyStr with
        | none => (none, [lineItemErr i "Quantity must be a positive integer"])
        | some quantity =>
          if quantity ≤ 0 then (none, [lineItemErr i "Quantity must be a positive integer"])
          else
            match parseFloatQ priceStr with
            | none => (none, [lineItemErr i "Unit price must be a positive number"])
            | some unitPrice =>
              if unitPrice ≤ 0 then (none, [lineItemErr i "Unit price must be a positive number"])
              else
                let discount := (parseFloatQ discountStr).getD 0
                if discount < 0 then (none, [lineItemErr i "Discount cannot be negative"])
                else
                  let item := mkLineItem now i product quantity unitPrice discount
                  let schemaErrs := lineItemSchemaErrors item
                  if schemaErrs.isEmpty then (some item, [])
                  else (none, schemaErrs.map (fun e => lineItemErr i e))

/-- The `for` loop over the semicolon-separated sub-records, carrying the
item index, collecting the items that parse and the per-item errors. -/
def parseItemsAux (ps : List Product) (now : Nat) : Nat → List String → List LineItem × List String
  | _, [] => ([], [])
  | i, s :: rest =>
    let parts := (splitChar '|' s).map trimStr
    let hd := parseItemParts ps now i parts
    let tl := parseItemsAux ps now (i + 1) rest
    ((match hd.1 with | some it => it :: tl.1 | none => tl.1), hd.2 ++ tl.2)

/-- parseLineItems: empty cell is one error; otherwise parse each non-blank
semicolon-separated sub-record; zero items with zero errors is reported as
one error. -/
def parseLineItems (ps : List Product) (now : Nat) (s : String) : List LineItem × List String :=
  if trimStr s = "" then ([], ["At least one line item is required"])
  else
    let itemStrings := (splitChar ';' s).filter (fun x => trimStr x ≠ "")
    let r := parseItemsAux ps now 0 itemStrings
    if r.1.isEmpty && r.2.isEmpty then ([], ["At least one valid line item is required"])
    else r

/-- `reduce((sum, item) => sum + item.quantity * item.unitPrice, 0)`. -/
def sumSubtotal (items : List LineItem) : ℚ :=
  items.foldl (fun s it => s + (it.quantity : ℚ) * it.unitPrice) 0

/-- `reduce((sum, item) => sum + (item.discount || 0), 0)` (on the rationals,
`x || 0` is the identity: a falsy numeric discount is exactly 0). -/
def sumDiscount (items : List LineItem) : ℚ :=
  items.foldl (fun s it => s + it.discount) 0

/-- `reduce((sum, item) => sum + item.total, 0)`. -/
def sumTotal (items : List LineItem) : ℚ :=
  items.foldl (fun s it => s + it.total) 0

/-! ## Sales-orders import: row parsing -/

/-- The candidate sales-order record a row builds up (Partial SalesOrder). -/
structure SalesData where
  orderNumber : Option String := none
  customerId : Option String := none
  customerName : Option String := none
  date : Option String := none
  dueDate : Option String := none
  status : Option String := none
  lineItems : Option (List LineItem) := none
  subtotal : Option ℚ := none
  discountAmount : Option ℚ := none
  taxAmount : Option ℚ := none
  total : Option ℚ := none
  paidAmount : Option ℚ := none
  balance : Option ℚ := none
  notes : Option String := none
deriving DecidableEq

/-- A parsed import row: 1-based row number (header is row 1), the candidate
data, and the ordered error list (empty means the row is valid). -/
structure ImportRow (α : Type) where
  row : Nat
  data : α
  errors : List String
deriving DecidableEq

/-- The sales-order status values of the schema enum. -/
def salesStatuses : List String := ["draft", "confirmed", "invoiced", "paid", "cancelled"]

/-- Modelled from the spec: salesOrderSchema (src lib/validations/sale) is
not among the repository sources; the spec re-validates the assembled
candidate against the entity schema (order number, customer, date and a
nonempty line-item list), reported as path/message pairs. -/
def salesOrderSchemaErrors (d : SalesData) : List String :=
  (if (match d.orderNumber with | none => true | some s => s = "") then
    ["orderNumber: Order number is required"] else []) ++
  (if d.customerId.isNone then ["customerId: Customer is required"] else []) ++
  (if d.date.isNone then ["date: Order date is required"] else []) ++
  (if (match d.lineItems with | none => true | some l => l.isEmpty) then
    ["lineItems: At least one line item is required"] else [])

/-- The row fields parsed before the line-items cell: orderNumber, customer,
date, dueDate (defaulted to the order date) with the ordering check, and
status (defaulted to draft). -/
def salesRowPre (cs : List Customer) (headers values : List String) : SalesData × List String :=
  let d0 : SalesData := {}
  let onCell := cellAt values (findHeaderIdx headers ["ordernumber", "order_number", "orderno"])
  let d1 := if onCell ≠ "" then { d0 with orderNumber := some onCell } else d0
  let e1 := if (match d1.orderNumber with | none => true | some s => trimStr s = "") then
      ["Order number is required"] else []
  let cCell := cellAt values (findHeaderIdx headers ["customername", "customer_name", "customer"])
  let dc : SalesData × List String :=
    if cCell ≠ "" then
      match customerLookup cs (lowerStr cCell) with
      | some cust => ({ d1 with customerId := some cust.id, customerName := some cust.name }, e1)
      | none => (d1, e1 ++ ["Customer \"" ++ cCell ++ "\" not found"])
    else (d1, e1)
  let e2 := dc.2 ++ (if dc.1.customerId.isNone then ["Customer is required"] else [])
  let dCell := cellAt values (findHeaderIdx headers ["date", "orderdate", "order_date"])
  let dd : SalesData × List String :=
    if dCell ≠ "" then
      match parseDateJS dCell with
      | none => (dc.1, e2 ++ ["Invalid date format: " ++ dCell])
      | some iso => ({ dc.1 with date := some iso }, e2)
    else (dc.1, e2)
  let e3 := dd.2 ++ (if dd.1.date.isNone then ["Order date is required"] else [])
  let duCell := cellAt values (findHeaderIdx headers ["duedate", "due_date"])
  let du : SalesData × List String :=
    if duCell ≠ "" then
      match parseDateJS duCell with
      | none => (dd.1, e3 ++ ["Invalid due date format: " ++ duCell])
      | some iso => ({ dd.1 with dueDate := some iso }, e3)
    else (dd.1, e3)
  let d4 := if du.1.dueDate.isNone then { du.1 with dueDate := du.1.date } else du.1
  let e4 := du.2 ++ (match d4.date, d4.dueDate with
    | some a, some b => if b < a then ["Due date must be on or after the order date"] else []
    | _, _ => [])
  let sCell := cellAt values (findHeaderIdx headers ["status"])
  let ds : SalesData × List String :=
    if sCell ≠ "" then
      if salesStatuses.contains (lowerStr sCell) then ({ d4 with status := some (lowerStr sCell) }, e4)
      else (d4, e4 ++ ["Invalid status. Must be one of: draft, confirmed, invoiced, paid, cancelled"])
    else (d4, e4)
  (if ds.1.status.isNone then { ds.1 with status := some "draft" } else ds.1, ds.2)

/-- The rest of the row: attach the parsed line items and their errors,
require a nonempty item list, compute the aggregated totals, parse notes,
and append the schema errors not already contained in an earlier message. -/
def salesRowRest (pre : SalesData × List String) (liCell : String)
    (liRes : List LineItem × List String) (nCell : String) : SalesData × List String :=
  let dl : SalesData × List String :=
    if liCell ≠ "" then ({ pre.1 with lineItems := some liRes.1 }, pre.2 ++ liRes.2)
    else pre
  let e6 := dl.2 ++ (if (match dl.1.lineItems with | none => true | some l => l.isEmpty) then
      ["At least one line item is required"] else [])
  let d7 :=
    match dl.1.lineItems with
    | some l =>
      if l.isEmpty then dl.1
      else { dl.1 with subtotal := some (sumSubtotal l), discountAmount := some (sumDiscount l),
                       taxAmount := some 0, total := some (sumTotal l),
                       paidAmount := some 0, balance := some (sumTotal l) }
    | none => dl.1
  let dn : SalesData × List String :=
    if nCell ≠ "" then
      if nCell.length > 1000 then (d7, e6 ++ ["Notes must not exceed 1000 characters"])
      else ({ d7 with notes := some nCell }, e6)
    else (d7, e6)
  (dn.1, (salesOrderSchemaErrors dn.1).foldl
    (fun acc m => if acc.any (fun e => containsStr e m) then acc else acc ++ [m]) dn.2)

/-- One data line of the sales-orders CSV (`i` is its 0-based line index, so
the reported row number is `i + 1`). -/
def salesParseRow (cs : List Customer) (ps : List Product) (now : Nat)
    (headers : List String) (i : Nat) (line : String) : ImportRow SalesData :=
  let values := (splitChar ',' line).map (fun v => stripQuotes (trimStr v))
  let pre := salesRowPre cs headers values
  let liCell := cellAt values (findHeaderIdx headers ["lineitems", "line_items", "items"])
  let nCell := cellAt values (findHeaderIdx headers ["notes", "note"])
  let res := salesRowRest pre liCell (parseLineItems ps now liCell) nCell
  ⟨i + 1, res.1, res.2⟩

/-- The row loop of the sales parseCSV over the data lines. -/
def salesParseRows (cs : List Customer) (ps : List Product) (now : Nat)
    (headers : List String) : Nat → List String → List (ImportRow SalesData)
  | _, [] => []
  | i, l :: rest =>
    salesParseRow cs ps now headers i l :: salesParseRows cs ps now headers (i + 1) rest

/-- The sales-orders parseCSV: non-blank lines, first line lowercased and
trimmed as headers, every further line parsed as a row; fewer than two
lines is a thrown error. -/
def salesParseCSV (cs : List Customer) (ps : List Product) (now : Nat)
    (text : String) : Except String (List (ImportRow SalesData)) :=
  let lines := (splitChar '\n' text).filter (fun l => trimStr l ≠ "")
  if lines.length < 2 then .error "CSV file must have at least a header row and one data row"
  else
    let headers := (splitChar ',' (lines.headD "")).map (fun h => lowerStr (trimStr h))
    .ok (salesParseRows cs ps now headers 1 (lines.drop 1))

/-! ## Commit eligibility (handleImport, both dialogs) -/

/-- The decision logic of handleImport, common to both import dialogs:
`some payload` exactly when the DataStore batch insert is invoked.  No valid
rows, or any row with errors, blocks the commit. -/
def handleImportDecision {α : Type} (parsedRows : List (ImportRow α)) : Option (List α) :=
  let validRows := parsedRows.filter (fun r => r.errors.isEmpty)
  if validRows.isEmpty then none
  else if parsedRows.any (fun r => !r.errors.isEmpty) then none
  else some (validRows.map (·.data))

/-! ## Transaction entry points and the leaf-account invariant -/

/-- The UUID shape test of createTransaction (8-4-4-4-12 hex groups). -/
def isUUIDLike (s : String) : Bool :=
  match (splitChar '-' s).map (fun g => (g.length, g.data.all (fun c => c.isDigit || ('a' ≤ c && c ≤ 'f') || ('A' ≤ c && c ≤ 'F')))) with
  | [(8, a), (4, b), (4, c), (4, d), (12, e)] => a && b && c && d && e
  | _ => false

/-- `.select(id).eq(name, value).maybeSingle()` against the accounts table
(several matches are a query error, surfaced as a lookup failure). -/
def dbFindAccountByName (accounts : List Account) (name : String) : Except String (Option Account) :=
  match accounts.filter (fun a => a.name == name) with
  | [] => .ok none
  | [a] => .ok (some a)
  | _ => .error "multiple rows returned"

/-- `.eq(id, value).maybeSingle()` against the accounts table. -/
def dbFindAccountById (accounts : List Account) (rid : String) : Except String (Option Account) :=
  match accounts.filter (fun a => a.id == rid) with
  | [] => .ok none
  | [a] => .ok (some a)
  | _ => .error "multiple rows returned"

/-- `.eq(parent_id, id).limit(1)` then `children.length > 0`: the account
has at least one child row in the DataStore. -/
def dbHasChildren (accounts : List Account) (rid : String) : Bool :=
  accounts.any (fun a => a.parentId == some rid)

/-- The parent-account rejection message of createTransaction. -/
def parentAccountMsg (name : String) : String :=
  "Account \"" ++ name ++ "\" is a parent account and cannot be used in transactions. Please select a leaf account."

/-- createTransaction, resolution of `accountFrom` when no accountFromId is
given: a UUID is verified to exist and to have no children; a name is looked
up and the found account is likewise checked for children before its id is
accepted. -/
def resolveAccountFrom (accounts : List Account) (ref : String) : Except String String :=
  if isUUIDLike ref then
    match dbFindAccountById accounts ref with
    | .error e => .error ("Failed to lookup account ID \"" ++ ref ++ "\": " ++ e)
    | .ok none => .error ("Account \"" ++ ref ++ "\" not found")
    | .ok (some a) =>
      if dbHasChildren accounts a.id then .error (parentAccountMsg ref)
      else .ok ref
  else
    match dbFindAccountByName accounts ref with
    | .error e => .error ("Failed to lookup account \"" ++ ref ++ "\": " ++ e)
    | .ok none => .error ("Account \"" ++ ref ++ "\" not found")
    | .ok (some a) =>
      if dbHasChildren accounts a.id then .error (parentAccountMsg ref)
      else .ok a.id

/-- createTransaction, resolution of `accountTo` when no accountToId is
given: the UUID branch checks for children, but the name branch accepts the
found account id with no child check (the branch ends at
`accountToId = toAccount.id`). -/
def resolveAccountTo (accounts : List Account) (ref : String) : Except String String :=
  if isUUIDLike ref then
    match dbFindAccountById accounts ref with
    | .error e => .error ("Failed to lookup account ID \"" ++ ref ++ "\": " ++ e)
    | .ok none => .error ("Account \"" ++ ref ++ "\" not found")
    | .ok (some a) =>
      if dbHasChildren accounts a.id then .error (parentAccountMsg ref)
      else .ok ref
  else
    match dbFindAccountByName accounts ref with
    | .error e => .error ("Failed to lookup account \"" ++ ref ++ "\": " ++ e)
    | .ok none => .error ("Account \"" ++ ref ++ "\" not found")
    | .ok (some a) => .ok a.id

/-- Leaf ids as the import parseCSV computes them: accounts (of any status)
that never occur as a truthy parent reference. -/
def csvLeafIds (accounts : List Account) : List String :=
  (accounts.filter (fun a => !hasChildrenIn accounts a.id)).map (·.id)

/-- The accountFrom/accountTo resolution of the transactions-import parseCSV:
lookup by lowercased name, then by lowercased code; a hit that is not a leaf
account is a row error, a hit that is a leaf yields (name, id). -/
def resolveCsvAccount (accounts : List Account) (accountName : String) :
    Except String (String × String) :=
  match (acctByName accounts (lowerStr accountName)).orElse
        (fun _ => acctByCode accounts (lowerStr accountName)) with
  | some account =>
    if !(csvLeafIds accounts).contains account.id then
      .error ("Account \"" ++ accountName ++ "\" is a parent account and cannot be used")
    else .ok (account.name, account.id)
  | none => .error ("Account \"" ++ accountName ++ "\" not found")

/-- The manual transaction form state relevant to validation. -/
structure TxForm where
  description : String
  amount : Option ℚ
  accountFrom : String
  accountTo : String
deriving DecidableEq

/-- Leaf ids as the form dialog computes them: among active accounts, those
with no (active) children. -/
def formLeafIds (accounts : List Account) : List String :=
  let active := accounts.filter (fun a => a.status == "active")
  (active.filter (fun a => !hasChildrenIn active a.id)).map (·.id)

/-- handleSubmit of the transaction form dialog: the first validation error,
or `none` when the transaction is saved.  Both selected accounts must be in
the leaf set. -/
def handleSubmitCheck (accounts : List Account) (form : TxForm) : Option String :=
  if form.description = "" || (match form.amount with | none => true | some a => a ≤ 0) then
    some "Please fill in all required fields with valid values."
  else if form.accountFrom = "" || form.accountTo = "" then
    some "Please select both From and To accounts."
  else if !(formLeafIds accounts).contains form.accountFrom then
    some "From Account must be a leaf account (not a parent account)."
  else if !(formLeafIds accounts).contains form.accountTo then
    some "To Account must be a leaf account (not a parent account)."
  else none

/-! ## Helper lemmas -/

theorem Row.get_setField_ne (r : Row) (g k : String) (v : Val) (h : k ≠ g) :
    Row.get (setField r g v) k = Row.get r k := by
  induction r with
  | nil => rfl
  | cons kv rest ih =>
    obtain ⟨a, b⟩ := kv
    by_cases hkg : a = g <;> by_cases hk : a = k
    · exact absurd (hk ▸ hkg) h
    · have hgk : ¬ (g = k) := fun hh => h hh.symm
      subst hkg
      simp only [setField, List.map_cons] at ih ⊢
      simp [Row.get, hgk]
      simpa using ih
    · subst hk
      simp only [setField, List.map_cons] at ih ⊢
      simp [Row.get, hkg]
    · simp only [setField, List.map_cons] at ih ⊢
      simp [Row.get, hkg, hk]
      simpa using ih

theorem fieldVal_setField_ne (r : Row) (g k : String) (v : Val) (h : k ≠ g) :
    fieldVal (setField r g v) k = fieldVal r k := by
  unfold fieldVal
  rw [Row.get_setField_ne r g k v h]

theorem cleanEntry_none_of_stripped (tbl : String) (m : IdMap) (kv : String × Val)
    (h : (foreignKeyFields tbl).contains kv.1 = true) : cleanEntry tbl m kv = none := by
  unfold cleanEntry
  rw [if_pos h]

theorem cleanEntry_keeps_key (tbl : String) (m : IdMap) (kv : String × Val)
    (h : (foreignKeyFields tbl).contains kv.1 = false) :
    ∃ v, cleanEntry tbl m kv = some (kv.1, v) := by
  unfold cleanEntry
  rw [if_neg (by simpa using h)]
  by_cases ht : truthy kv.2 = true
  · rw [if_pos ht]
    cases hopt : optionalFkMapping kv.1 with
    | none => exact ⟨kv.2, by simp [hopt]⟩
    | some refTbl =>
      cases hl : idLookup m refTbl (valStr kv.2) with
      | none => exact ⟨none, by simp [hopt, hl]⟩
      | some newId => exact ⟨some newId, by simp [hopt, hl]⟩
  · rw [if_neg ht]
    exact ⟨kv.2, rfl⟩

theorem get_filterMap_clean_none (tbl : String) (m : IdMap) (k : String)
    (hk : (foreignKeyFields tbl).contains k = true) :
    ∀ l : Row, Row.get (l.filterMap (cleanEntry tbl m)) k = none := by
  intro l
  induction l with
  | nil => rfl
  | cons kv rest ih =>
    rw [List.filterMap_cons]
    by_cases h : (foreignKeyFields tbl).contains kv.1 = true
    · rw [cleanEntry_none_of_stripped tbl m kv h]
      exact ih
    · obtain ⟨v, hv⟩ := cleanEntry_keeps_key tbl m kv (by simpa using h)
      rw [hv]
      have hne : ¬ (kv.1 = k) := by
        intro hEq
        exact h (hEq ▸ hk)
      simp [Row.get, hne, ih]

theorem get_cleanFields_stripped (tbl : String) (m : IdMap) (r : Row) (k : String)
    (hk : (foreignKeyFields tbl).contains k = true) :
    Row.get (cleanFields tbl m r) k = none :=
  get_filterMap_clean_none tbl m k hk (stripMeta r)

theorem remapRequired_eq_none (m : IdMap) :
    ∀ (fs : List String) (r : Row) (f : String), f ∈ fs → fs.Nodup →
    (truthy (fieldVal r f) = false ∨
      (referencedTableOf f ≠ "" ∧ idLookup m (referencedTableOf f) (valStr (fieldVal r f)) = none)) →
    remapRequired m fs r = none := by
  intro fs
  induction fs with
  | nil => intro r f hf; cases hf
  | cons g rest ih =>
    intro r f hf hnd hfail
    have hnd' := List.nodup_cons.mp hnd
    rcases List.mem_cons.mp hf with hfg | hmem
    · subst hfg
      rcases hfail with hft | ⟨href, hlook⟩
      · simp [remapRequired, hft]
      · cases ht : truthy (fieldVal r f)
        · simp [remapRequired, ht]
        · simp [remapRequired, ht, href, hlook]
    · have hgf : g ≠ f := fun hEq => hnd'.1 (hEq ▸ hmem)
      cases ht : truthy (fieldVal r g)
      · simp [remapRequired, ht]
      · by_cases href : referencedTableOf g = ""
        · simp only [remapRequired, ht, if_true, href, ne_eq, not_true_eq_false, if_false]
          exact ih r f hmem hnd'.2 hfail
        · cases hlook : idLookup m (referencedTableOf g) (valStr (fieldVal r g)) with
          | none => simp [remapRequired, ht, href, hlook]
          | some newId =>
            simp only [remapRequired, ht, if_true, ne_eq, href, not_false_eq_true, hlook]
            apply ih _ f hmem hnd'.2
            rcases hfail with hft | ⟨a, b⟩
            · left
              rw [fieldVal_setField_ne r g f (some newId) (Ne.symm hgf)]
              exact hft
            · right
              refine ⟨a, ?_⟩
              rw [fieldVal_setField_ne r g f (some newId) (Ne.symm hgf)]
              exact b

theorem requiredFks_nodup (tbl : String) : (tablesWithRequiredForeignKeys tbl).Nodup := by
  unfold tablesWithRequiredForeignKeys
  split_ifs <;> decide

theorem requiredFks_referenced (tbl f : String) (hf : f ∈ tablesWithRequiredForeignKeys tbl) :
    referencedTableOf f ≠ "" := by
  unfold tablesWithRequiredForeignKeys at hf
  split_ifs at hf <;> fin_cases hf <;> decide

theorem updateRow_map_id (rows : List StoredRow) (rid : String) (payload : Row) :
    (updateRow rows rid payload).map (fun sr => sr.id) = rows.map (fun sr => sr.id) := by
  unfold updateRow
  rw [List.map_map]
  apply List.map_congr_left
  intro sr _
  by_cases h : sr.id = rid <;> simp [h]

theorem find_map_pair (g : String → List Row) :
    ∀ (l : List String) (t : String), t ∈ l →
      (l.map (fun s => (s, g s))).find? (fun p => p.1 == t) = some (t, g t) := by
  intro l
  induction l with
  | nil => intro t ht; cases ht
  | cons a l ih =>
    intro t ht
    rw [List.map_cons]
    by_cases h : a = t
    · subst h
      rw [List.find?_cons_of_pos _ (by simp)]
    · rw [List.find?_cons_of_neg _ (by simp [h])]
      exact ih t (by rcases List.mem_cons.mp ht with h1 | h1; exact absurd h1.symm h; exact h1)

theorem map_fst_map_pair (g : String → List Row) :
    ∀ l : List String, (l.map (fun s => (s, g s))).map (fun p => p.1) = l := by
  intro l
  induction l with
  | nil => rfl
  | cons a l ih => simp [ih]

/-! ## Claim theorems -/

/-- C6: during export, a per-collection fetch error records an empty
sequence for that collection while the loop continues, so the produced
snapshot document always carries one entry per collection of the fixed
list, in order. -/
theorem backup_fetch_error_yields_empty_entry
    (fetchAll : String → Except String (List Row)) (t : String) (ht : t ∈ tables) :
    (createBackupData fetchAll).map (fun p => p.1) = tables ∧
    (∀ e, fetchAll t = .error e →
      (createBackupData fetchAll).find? (fun p => p.1 == t) = some (t, [])) := by
  constructor
  · unfold createBackupData
    exact map_fst_map_pair _ tables
  · intro e he
    unfold createBackupData
    rw [find_map_pair (fun s => match fetchAll s with | .ok d => d | .error _ => []) tables t ht]
    rw [he]

def fetchW : String → Except String (List Row) :=
  fun t => if t = "products" then .error "network failure" else .ok []

theorem backup_fetch_error_witness :
    (createBackupData fetchW).map (fun p => p.1) = tables ∧
    (createBackupData fetchW).find? (fun p => p.1 == "products") = some ("products", []) :=
  ⟨(backup_fetch_error_yields_empty_entry fetchW "products" (by decide)).1,
   (backup_fetch_error_yields_empty_entry fetchW "products" (by decide)).2 "network failure" rfl⟩

/-- C3: in both import dialogs, one row with a non-empty error list makes
handleImport refuse to commit: the DataStore batch insert is never invoked
(no partial import). -/
theorem import_blocked_by_any_invalid_row {α : Type} (parsedRows : List (ImportRow α))
    (h : ∃ r ∈ parsedRows, r.errors ≠ []) : handleImportDecision parsedRows = none := by
  obtain ⟨r, hr, he⟩ := h
  have hany : parsedRows.any (fun x => !x.errors.isEmpty) = true := by
    rw [List.any_eq_true]
    refine ⟨r, hr, ?_⟩
    simp [List.isEmpty_iff, he]
  unfold handleImportDecision
  by_cases hv : (parsedRows.filter (fun x => x.errors.isEmpty)).isEmpty
  · simp [hv]
  · simp [hv, hany]

theorem import_blocked_witness :
    handleImportDecision [(⟨2, 0, ["Amount must be a positive number"]⟩ : ImportRow Nat)] = none :=
  import_blocked_by_any_invalid_row _
    ⟨⟨2, 0, ["Amount must be a positive number"]⟩, by simp, by simp⟩

/-- C10: a transactions record processed by restore never carries
account_from or account_to into the DataStore: both fields are in the
stripped list for transactions, and stripping runs before the optional
remap, whatever the ID map contains.  Every row of the store after the
step is either an untouched pre-existing row or carries neither field. -/
theorem restoreRecord_transactions_eq (st : RestoreState) (r : Row) :
    restoreRecord "transactions" st r =
      if (cleanFields "transactions" st.idMap r).isEmpty then st
      else insRecord "transactions" st (cleanFields "transactions" st.idMap r) (fieldVal r "id") := rfl

theorem restored_transactions_carry_no_account_refs :
    ∀ (st : RestoreState) (r : Row) (sr : StoredRow),
      sr ∈ (restoreRecord "transactions" st r).store →
      sr ∈ st.store ∨
        (Row.get sr.fields "account_from" = none ∧ Row.get sr.fields "account_to" = none) := by
  intro st r sr hmem
  rw [restoreRecord_transactions_eq] at hmem
  by_cases hemp : (cleanFields "transactions" st.idMap r).isEmpty
  · rw [if_pos hemp] at hmem
    exact Or.inl hmem
  · rw [if_neg hemp] at hmem
    unfold insRecord recordSuccess at hmem
    simp only [List.mem_append, List.mem_singleton] at hmem
    rcases hmem with hmem | hmem
    · exact Or.inl hmem
    · right
      subst hmem
      exact ⟨get_cleanFields_stripped _ _ _ _ (by decide),
             get_cleanFields_stripped _ _ _ _ (by decide)⟩

def restoredTxState : RestoreState := ⟨[], 0, [(("accounts", "a9"), "new-7")], 0, 0⟩

def restoredTxRec : Row :=
  [("id", some "t1"), ("account_from", some "a9"), ("account_to", some "a9"),
   ("amount", some "50"), ("created_by", some "u1")]

theorem restored_transactions_witness :
    (⟨"transactions", freshId 0, cleanFields "transactions" restoredTxState.idMap restoredTxRec⟩ : StoredRow)
        ∈ (restoreRecord "transactions" restoredTxState restoredTxRec).store ∧
    ((⟨"transactions", freshId 0, cleanFields "transactions" restoredTxState.idMap restoredTxRec⟩ : StoredRow)
        ∈ restoredTxState.store ∨
      (Row.get (cleanFields "transactions" restoredTxState.idMap restoredTxRec) "account_from" = none ∧
       Row.get (cleanFields "transactions" restoredTxState.idMap restoredTxRec) "account_to" = none)) :=
  ⟨by decide,
   restored_transactions_carry_no_account_refs restoredTxState restoredTxRec _ (by decide)⟩

def parentChildAccounts : List Account :=
  [⟨"acc-parent", "Assets", "1000", none, "active"⟩,
   ⟨"acc-cash", "Cash", "1001", some "acc-parent", "active"⟩]

/-- C4: of the four account-resolution branches of createTransaction, the
accountTo-by-name branch accepts the id of an account that has children,
while the parallel accountFrom branch, the CSV resolution and the manual
form all reject it: the leaf-account invariant is not enforced on that
path. -/
theorem createTransaction_accountTo_name_accepts_parent :
    resolveAccountTo parentChildAccounts "Assets" = .ok "acc-parent" ∧
    dbHasChildren parentChildAccounts "acc-parent" = true ∧
    resolveAccountFrom parentChildAccounts "Assets" = .error (parentAccountMsg "Assets") ∧
    resolveCsvAccount parentChildAccounts "Assets" =
      .error ("Account \"Assets\" is a parent account and cannot be used") ∧
    handleSubmitCheck parentChildAccounts ⟨"Office rent", some 10, "acc-cash", "acc-parent"⟩ =
      some "To Account must be a leaf account (not a parent account)." := by
  refine ⟨?_, ?_, ?_, ?_, ?_⟩ <;> decide

def c7Rec : Row := [("id", some "p1"), ("category_id", some "c1"), ("sku", some "SKU1")]

def c7Map : IdMap := [(("product_categories", "c1"), "cNew")]

/-- C7, counterexample: a products record with a present, non-null
category_id whose old id is in the ID map is not rewritten to the new id —
the field is gone from the cleaned payload altogether, because the strip
list of products also names category_id and stripping runs first. -/
theorem optional_fk_not_rewritten_counterexample :
    idLookup c7Map "product_categories" "c1" = some "cNew" ∧
    truthy (fieldVal c7Rec "category_id") = true ∧
    Row.get (cleanFields "products" c7Map c7Rec) "category_id" = none := by
  refine ⟨?_, ?_, ?_⟩ <;> decide

/-- C7 as amended: every field of the optional-remap table is, on the
collections that carry it, also in that collection strip list, so it is
removed from the payload before the write — never rewritten through the ID
map and never written as an explicit null — while the record itself is
still restored: a products record whose category reference cannot resolve
is inserted (with no category_id field) rather than rejected. -/
theorem optional_fk_fields_are_stripped_not_remapped :
    (∀ (t k : String) (m : IdMap) (r : Row), k ∈ foreignKeyFields t →
        Row.get (cleanFields t m r) k = none) ∧
    (∀ (st : RestoreState) (r : Row),
        (cleanFields "products" st.idMap r).isEmpty = false →
        maybeSingleBy st.store "products" "sku"
            (valStr (fieldVal (cleanFields "products" st.idMap r) "sku")) = .ok none →
        (restoreRecord "products" st r).store =
            st.store ++ [⟨"products", freshId st.nextId, cleanFields "products" st.idMap r⟩] ∧
        (restoreRecord "products" st r).tableErrors = st.tableErrors ∧
        Row.get (cleanFields "products" st.idMap r) "category_id" = none) := by
  constructor
  · intro t k m r hk
    exact get_cleanFields_stripped t m r k (by simpa using hk)
  · intro st r hne hfind
    have hres : restoreRecord "products" st r =
        insRecord "products" st (cleanFields "products" st.idMap r) (fieldVal r "id") := by
      unfold restoreRecord
      rw [if_neg (by simp [hne])]
      simp only [show tablesWithRequiredForeignKeys "products" = ([] : List String) from rfl,
                 remapRequired, show uniqueFieldOf "products" = "sku" from rfl]
      cases htr : truthy (fieldVal (cleanFields "products" st.idMap r) "sku")
      · simp [htr]
      · simp only [htr, Bool.and_true, ne_eq]
        rw [if_pos (by decide)]
        rw [hfind]
    rw [hres]
    unfold insRecord recordSuccess
    exact ⟨rfl, rfl, get_cleanFields_stripped _ _ _ _ (by decide)⟩

def c7State : RestoreState := ⟨[], 0, [], 0, 0⟩

theorem optional_fk_stripped_witness :
    ("category_id" ∈ foreignKeyFields "products" ∧
      Row.get (cleanFields "products" c7Map c7Rec) "category_id" = none) ∧
    ((restoreRecord "products" c7State c7Rec).store =
        [⟨"products", freshId 0, cleanFields "products" c7State.idMap c7Rec⟩] ∧
      (restoreRecord "products" c7State c7Rec).tableErrors = 0) :=
  ⟨⟨by decide, optional_fk_fields_are_stripped_not_remapped.1 "products" "category_id" c7Map c7Rec (by decide)⟩,
   ⟨((optional_fk_fields_are_stripped_not_remapped.2 c7State c7Rec (by decide) (by decide)).1),
    ((optional_fk_fields_are_stripped_not_remapped.2 c7State c7Rec (by decide) (by decide)).2.1)⟩⟩

/-- C2: a record whose required foreign key is untruthy, or whose old id is
not in the ID map, is skipped: the store, the ID map and the restored count
are untouched and the collection failure counter increments — it is never
written with a null or unremapped required reference. -/
theorem required_fk_failure_skips_record (tbl f : String) (st : RestoreState) (r : Row)
    (hf : f ∈ tablesWithRequiredForeignKeys tbl)
    (hne : (cleanFields tbl st.idMap r).isEmpty = false)
    (hfail : truthy (fieldVal (cleanFields tbl st.idMap r) f) = false ∨
      idLookup st.idMap (referencedTableOf f)
        (valStr (fieldVal (cleanFields tbl st.idMap r) f)) = none) :
    (restoreRecord tbl st r).store = st.store ∧
    (restoreRecord tbl st r).idMap = st.idMap ∧
    (restoreRecord tbl st r).restored = st.restored ∧
    (restoreRecord tbl st r).tableErrors = st.tableErrors + 1 := by
  have hnone : remapRequired st.idMap (tablesWithRequiredForeignKeys tbl)
      (cleanFields tbl st.idMap r) = none := by
    apply remapRequired_eq_none st.idMap _ _ f hf (requiredFks_nodup tbl)
    rcases hfail with h | h
    · exact Or.inl h
    · exact Or.inr ⟨requiredFks_referenced tbl f hf, h⟩
  have hres : restoreRecord tbl st r = { st with tableErrors := st.tableErrors + 1 } := by
    unfold restoreRecord
    rw [if_neg (by simp [hne]), hnone]
  rw [hres]
  exact ⟨rfl, rfl, rfl, rfl⟩

def stockMoveState : RestoreState := ⟨[], 0, [], 0, 0⟩

def stockMoveRec : Row :=
  [("id", some "m1"), ("product_id", some "pOLD"), ("quantity", some "5")]

theorem required_fk_failure_witness :
    (restoreRecord "stock_movements" stockMoveState stockMoveRec).store = stockMoveState.store ∧
    (restoreRecord "stock_movements" stockMoveState stockMoveRec).idMap = stockMoveState.idMap ∧
    (restoreRecord "stock_movements" stockMoveState stockMoveRec).restored = stockMoveState.restored ∧
    (restoreRecord "stock_movements" stockMoveState stockMoveRec).tableErrors = stockMoveState.tableErrors + 1 :=
  required_fk_failure_skips_record "stock_movements" "product_id" stockMoveState stockMoveRec
    (by decide) (by decide) (Or.inr (by decide))

/-- C1: when the collection has a natural unique key, the cleaned record
carries a truthy value for it and the DataStore already holds a matching
row, the restore step updates that row in place: the set of stored row ids
is unchanged (no duplicate for the natural key is inserted), no error is
counted, and the ID map records the old id to the existing row id. -/
theorem unique_key_restore_updates_not_inserts
    (tbl : String) (st : RestoreState) (r : Row) (c2 : Row) (sr : StoredRow)
    (hu : uniqueFieldOf tbl ≠ "")
    (hne : (cleanFields tbl st.idMap r).isEmpty = false)
    (hremap : remapRequired st.idMap (tablesWithRequiredForeignKeys tbl)
        (cleanFields tbl st.idMap r) = some c2)
    (htruthy : truthy (fieldVal c2 (uniqueFieldOf tbl)) = true)
    (hfind : maybeSingleBy st.store tbl (uniqueFieldOf tbl)
        (valStr (fieldVal c2 (uniqueFieldOf tbl))) = .ok (some sr)) :
    (restoreRecord tbl st r).store.map (fun x => x.id) = st.store.map (fun x => x.id) ∧
    (restoreRecord tbl st r).store.length = st.store.length ∧
    (restoreRecord tbl st r).tableErrors = st.tableErrors ∧
    (truthy (fieldVal r "id") = true →
      idLookup (restoreRecord tbl st r).idMap tbl (valStr (fieldVal r "id")) = some sr.id) := by
  have hcond : (decide (uniqueFieldOf tbl ≠ "") && truthy (fieldVal c2 (uniqueFieldOf tbl))) = true := by
    simp [hu, htruthy]
  have hres : restoreRecord tbl st r =
      recordSuccess tbl st (updateRow st.store sr.id c2) st.nextId (fieldVal r "id") sr.id := by
    simp [restoreRecord, hne, hremap, hcond, hfind]
    intro hcontra
    exact absurd (hcontra hu) (by simp [htruthy])
  rw [hres]
  unfold recordSuccess
  refine ⟨updateRow_map_id _ _ _, ?_, rfl, ?_⟩
  · have h := congrArg List.length (updateRow_map_id st.store sr.id c2)
    simpa using h
  · intro hid
    simp only [hid, if_pos]
    simp [idLookup, List.find?]

def acctStoreE : List StoredRow :=
  [⟨"accounts", "existing-1", [("code", some "100"), ("name", some "Old Cash")]⟩]

def stE : RestoreState := ⟨acctStoreE, 5, [], 0, 0⟩

def recE : Row := [("id", some "a1"), ("code", some "100"), ("name", some "Cash")]

theorem unique_key_restore_witness :
    (restoreRecord "accounts" stE recE).store.map (fun x => x.id) = stE.store.map (fun x => x.id) ∧
    (restoreRecord "accounts" stE recE).store.length = stE.store.length ∧
    (restoreRecord "accounts" stE recE).tableErrors = stE.tableErrors ∧
    idLookup (restoreRecord "accounts" stE recE).idMap "accounts"
      (valStr (fieldVal recE "id")) = some "existing-1" := by
  have h := unique_key_restore_updates_not_inserts "accounts" stE recE
      (cleanFields "accounts" stE.idMap recE)
      ⟨"accounts", "existing-1", [("code", some "100"), ("name", some "Old Cash")]⟩
      (by decide) (by decide) (by decide) (by decide) (by decide)
  exact ⟨h.1, h.2.1, h.2.2.1, h.2.2.2 (by decide)⟩

/-- C9: a line item whose discount sub-field fails numeric parsing is
accepted with discount = 0 (the `parseFloat(discountStr) || 0` coercion):
no error is emitted, and only an explicitly negative parsed discount is
rejected. -/
theorem nonnumeric_discount_coerced_to_zero
    (ps : List Product) (now i : Nat) (nameStr qtyStr priceStr dStr : String)
    (p : Product) (q : Int) (up : ℚ)
    (hname : nameStr ≠ "")
    (hp : productLookup ps (lowerStr nameStr) = some p)
    (hq : parseIntJS qtyStr = some q) (hqpos : 0 < q)
    (hup : parseFloatQ priceStr = some up) (huppos : 0 < up)
    (hd : parseFloatQ dStr = none) :
    (parseItemParts ps now i [nameStr, qtyStr, priceStr, dStr]).2 = [] ∧
    ∃ it, (parseItemParts ps now i [nameStr, qtyStr, priceStr, dStr]).1 = some it ∧
      it.discount = 0 ∧ it.total = max 0 ((q : ℚ) * up) := by
  have hq3 : ¬ (q ≤ 0) := not_le.mpr hqpos
  have hup3 : ¬ (up ≤ 0) := not_le.mpr huppos
  have htot : ¬ (max 0 ((q : ℚ) * up - 0) < 0) := not_lt.mpr (le_max_left 0 _)
  unfold parseItemParts
  simp [hname, hp, hq, hup, hd, hq3, hup3, mkLineItem, lineItemSchemaErrors, htot]

def c8Products : List Product := [⟨"p1", "Widget", "W1"⟩, ⟨"p2", "Gadget", "G1"⟩]

theorem nonnumeric_discount_witness :
    (parseItemParts c8Products 0 0 ["Widget", "2", "50", "abc"]).2 = [] ∧
    ∃ it, (parseItemParts c8Products 0 0 ["Widget", "2", "50", "abc"]).1 = some it ∧
      it.discount = 0 ∧ it.total = max 0 ((2 : ℚ) * 50) :=
  nonnumeric_discount_coerced_to_zero c8Products 0 0 "Widget" "2" "50" "abc"
    ⟨"p1", "Widget", "W1"⟩ 2 50 (by decide) (by decide) (by decide) (by decide)
    (by simp [parseFloatQ, digitsToNat]) (by norm_num) (by simp [parseFloatQ])

theorem parseItemParts_total (ps : List Product) (now i : Nat) (parts : List String)
    (it : LineItem) (h : (parseItemParts ps now i parts).1 = some it) :
    it.total = max 0 ((it.quantity : ℚ) * it.unitPrice - it.discount) := by
  simp only [parseItemParts] at h
  split at h
  · exact Option.noConfusion h
  · split at h
    · exact Option.noConfusion h
    · split at h
      · exact Option.noConfusion h
      · split at h
        · exact Option.noConfusion h
        · split at h
          · exact Option.noConfusion h
          · split at h
            · exact Option.noConfusion h
            · split at h
              · exact Option.noConfusion h
              · split at h
                · exact Option.noConfusion h
                · split at h
                  · cases h
                    rfl
                  · exact Option.noConfusion h

theorem parseItemsAux_total (ps : List Product) (now : Nat) :
    ∀ (ss : List String) (i : Nat) (it : LineItem), it ∈ (parseItemsAux ps now i ss).1 →
      it.total = max 0 ((it.quantity : ℚ) * it.unitPrice - it.discount) := by
  intro ss
  induction ss with
  | nil =>
    intro i it hmem
    simp [parseItemsAux] at hmem
  | cons s rest ih =>
    intro i it hmem
    simp only [parseItemsAux] at hmem
    cases hph : (parseItemParts ps now i ((splitChar '|' s).map trimStr)).1 with
    | none =>
      rw [hph] at hmem
      exact ih (i + 1) it hmem
    | some x =>
      rw [hph] at hmem
      rcases List.mem_cons.mp hmem with hx | hx
      · subst hx
        exact parseItemParts_total ps now i _ it hph
      · exact ih (i + 1) it hx

theorem parseLineItems_total (ps : List Product) (now : Nat) (s : String) (it : LineItem)
    (hmem : it ∈ (parseLineItems ps now s).1) :
    it.total = max 0 ((it.quantity : ℚ) * it.unitPrice - it.discount) := by
  simp only [parseLineItems] at hmem
  split at hmem
  · simp at hmem
  · split at hmem
    · simp at hmem
    · exact parseItemsAux_total ps now _ 0 it hmem

def c8Customers : List Customer := [⟨"c1", "Acme"⟩]

def c8Headers : List String := ["ordernumber", "customername", "date", "lineitems"]

def c8Line : String := "SO-1,Acme,2024-01-15,Widget|1|5|10;Gadget|2|100|0"

set_option maxHeartbeats 2000000 in
/-- C8: every parsed line item total is clamped at zero
(max(0, quantity x unitPrice - discount)), and on a concrete row whose
first item has a discount exceeding its subtotal the grand total (200)
exceeds subtotal minus summed discounts (205 - 10 = 195). -/
theorem line_item_totals_clamped_at_zero :
    (∀ (ps : List Product) (now : Nat) (s : String) (it : LineItem),
        it ∈ (parseLineItems ps now s).1 →
        it.total = max 0 ((it.quantity : ℚ) * it.unitPrice - it.discount)) ∧
    ((salesParseRow c8Customers c8Products 0 c8Headers 1 c8Line).data.subtotal = some 205 ∧
     (salesParseRow c8Customers c8Products 0 c8Headers 1 c8Line).data.discountAmount = some 10 ∧
     (salesParseRow c8Customers c8Products 0 c8Headers 1 c8Line).data.total = some 200 ∧
     (salesParseRow c8Customers c8Products 0 c8Headers 1 c8Line).errors = [] ∧
     (200 : ℚ) > 205 - 10) := by
  constructor
  · exact fun ps now s it hmem => parseLineItems_total ps now s it hmem
  · refine ⟨?_, ?_, ?_, ?_, by norm_num⟩ <;>
    · simp [c8Customers, c8Products, c8Headers, c8Line, salesParseRow, salesRowPre,
            salesRowRest, parseLineItems, parseItemsAux, parseItemParts, splitChar,
            splitCharList, trimStr, lowerStr, stripQuotes, wsChar, cellAt, findHeaderIdx,
            customerLookup, productLookup, parseDateJS, parseIntJS, parseFloatQ,
            digitsToNat, salesStatuses, mkLineItem, lineItemSchemaErrors, salesOrderSchemaErrors,
            sumSubtotal, sumDiscount, sumTotal, containsStr, containsSub, isPrefixList,
            lineItemErr, String.length, List.cons_ne_nil]
      norm_num
      try simp
      try norm_num

def itW : LineItem :=
  ⟨toString 0 ++ "-" ++ toString 0, "p1", "Widget", "W1", 1, 5, 10, 0, 0⟩

set_option maxHeartbeats 1000000 in
theorem line_item_totals_witness :
    itW ∈ (parseLineItems c8Products 0 "Widget|1|5|10").1 ∧
    itW.total = max 0 ((itW.quantity : ℚ) * itW.unitPrice - itW.discount) := by
  have hm : itW ∈ (parseLineItems c8Products 0 "Widget|1|5|10").1 := by
    simp [itW, c8Products, parseLineItems, parseItemsAux, parseItemParts, splitChar,
          splitCharList, trimStr, lowerStr, wsChar, productLookup, parseIntJS, parseFloatQ,
          digitsToNat, mkLineItem, lineItemSchemaErrors, lineItemErr]
    try norm_num
  exact ⟨hm, line_item_totals_clamped_at_zero.1 c8Products 0 "Widget|1|5|10" itW hm⟩

/-! ## Clock dependence of the sales-orders parser (C5) -/

/-- Erase the synthetic (clock-bearing) id of a line item. -/
def eraseId (it : LineItem) : LineItem := { it with id := "" }

/-- Erase the line-item ids inside a parsed sales-order candidate. -/
def eraseSD (d : SalesData) : SalesData :=
  { d with lineItems := d.lineItems.map (fun l => l.map eraseId) }

/-- Erase the line-item ids inside a parsed row. -/
def eraseRowIds (r : ImportRow SalesData) : ImportRow SalesData :=
  { r with data := eraseSD r.data }

theorem lineItemSchemaErrors_mk_clock (now i : Nat) (p : Product) (q : Int) (up d : ℚ) :
    lineItemSchemaErrors (mkLineItem now i p q up d) =
      lineItemSchemaErrors (mkLineItem 0 i p q up d) := rfl

theorem eraseId_mk_clock (now i : Nat) (p : Product) (q : Int) (up d : ℚ) :
    eraseId (mkLineItem now i p q up d) = eraseId (mkLineItem 0 i p q up d) := rfl

theorem parseItemParts_clock (ps : List Product) (t₁ t₂ i : Nat) (parts : List String) :
    ((parseItemParts ps t₁ i parts).1.map eraseId = (parseItemParts ps t₂ i parts).1.map eraseId) ∧
    ((parseItemParts ps t₁ i parts).2 = (parseItemParts ps t₂ i parts).2) := by
  by_cases h1 : parts.length < 3
  · simp [parseItemParts, h1]
  · by_cases h2 : parts[0]?.getD "" = ""
    · simp [parseItemParts, h1, h2]
    · cases hp : productLookup ps (lowerStr (parts[0]?.getD "")) with
      | none => simp [parseItemParts, h1, h2, hp]
      | some p =>
        cases hq : parseIntJS (parts[1]?.getD "") with
        | none => simp [parseItemParts, h1, h2, hp, hq]
        | some q =>
          by_cases h3 : q ≤ 0
          · simp [parseItemParts, h1, h2, hp, hq, h3]
          · cases hup : parseFloatQ (parts[2]?.getD "") with
            | none => simp [parseItemParts, h1, h2, hp, hq, h3, hup]
            | some up =>
              by_cases h4 : up ≤ 0
              · simp [parseItemParts, h1, h2, hp, hq, h3, hup, h4]
              · by_cases h5 : (parseFloatQ (parts[3]?.getD "0")).getD 0 < 0
                · simp [parseItemParts, h1, h2, hp, hq, h3, hup, h4, h5]
                · by_cases h6 : (lineItemSchemaErrors
                      (mkLineItem 0 i p q up ((parseFloatQ (parts[3]?.getD "0")).getD 0))).isEmpty
                  · simp [parseItemParts, h1, h2, hp, hq, h3, hup, h4, h5,
                          lineItemSchemaErrors_mk_clock, h6, eraseId_mk_clock]
                  · simp [parseItemParts, h1, h2, hp, hq, h3, hup, h4, h5,
                          lineItemSchemaErrors_mk_clock, h6]

theorem parseItemsAux_clock (ps : List Product) (t₁ t₂ : Nat) :
    ∀ (ss : List String) (i : Nat),
      ((parseItemsAux ps t₁ i ss).1.map eraseId = (parseItemsAux ps t₂ i ss).1.map eraseId) ∧
      ((parseItemsAux ps t₁ i ss).2 = (parseItemsAux ps t₂ i ss).2) := by
  intro ss
  induction ss with
  | nil => intro i; exact ⟨rfl, rfl⟩
  | cons s rest ih =>
    intro i
    obtain ⟨hi, he⟩ := parseItemParts_clock ps t₁ t₂ i ((splitChar '|' s).map trimStr)
    obtain ⟨ih1, ih2⟩ := ih (i + 1)
    simp only [parseItemsAux]
    cases hA : (parseItemParts ps t₁ i ((splitChar '|' s).map trimStr)).1 with
    | none =>
      cases hB : (parseItemParts ps t₂ i ((splitChar '|' s).map trimStr)).1 with
      | none => exact ⟨ih1, by rw [he, ih2]⟩
      | some x2 =>
        rw [hA, hB] at hi
        exact absurd hi (by simp)
    | some x1 =>
      cases hB : (parseItemParts ps t₂ i ((splitChar '|' s).map trimStr)).1 with
      | none =>
        rw [hA, hB] at hi
        exact absurd hi (by simp)
      | some x2 =>
        rw [hA, hB] at hi
        simp only [Option.map_some', Option.some.injEq] at hi
        exact ⟨by simp [hi, ih1], by rw [he, ih2]⟩

theorem isEmpty_eq_of_map_eraseId {l₁ l₂ : List LineItem}
    (h : l₁.map eraseId = l₂.map eraseId) : l₁.isEmpty = l₂.isEmpty := by
  cases l₁ <;> cases l₂ <;> simp_all

theorem parseLineItems_clock (ps : List Product) (t₁ t₂ : Nat) (s : String) :
    ((parseLineItems ps t₁ s).1.map eraseId = (parseLineItems ps t₂ s).1.map eraseId) ∧
    ((parseLineItems ps t₁ s).2 = (parseLineItems ps t₂ s).2) := by
  by_cases h : trimStr s = ""
  · simp [parseLineItems, h]
  · obtain ⟨h1, h2⟩ := parseItemsAux_clock ps t₁ t₂
      ((splitChar ';' s).filter (fun x => trimStr x ≠ "")) 0
    have hemp := isEmpty_eq_of_map_eraseId h1
    by_cases hc : ((parseItemsAux ps t₁ 0 ((splitChar ';' s).filter (fun x => trimStr x ≠ ""))).1.isEmpty &&
        (parseItemsAux ps t₁ 0 ((splitChar ';' s).filter (fun x => trimStr x ≠ ""))).2.isEmpty) = true
    · have hc2 : ((parseItemsAux ps t₂ 0 ((splitChar ';' s).filter (fun x => trimStr x ≠ ""))).1.isEmpty &&
          (parseItemsAux ps t₂ 0 ((splitChar ';' s).filter (fun x => trimStr x ≠ ""))).2.isEmpty) = true := by
        rw [← hemp, ← h2]
        exact hc
      have eqA : parseLineItems ps t₁ s = ([], ["At least one valid line item is required"]) := by
        simp only [parseLineItems]
        rw [if_neg h, if_pos hc]
      have eqB : parseLineItems ps t₂ s = ([], ["At least one valid line item is required"]) := by
        simp only [parseLineItems]
        rw [if_neg h, if_pos hc2]
      rw [eqA, eqB]
      exact ⟨rfl, rfl⟩
    · have hc2 : ¬ ((parseItemsAux ps t₂ 0 ((splitChar ';' s).filter (fun x => trimStr x ≠ ""))).1.isEmpty &&
          (parseItemsAux ps t₂ 0 ((splitChar ';' s).filter (fun x => trimStr x ≠ ""))).2.isEmpty) = true := by
        rw [← hemp, ← h2]
        exact hc
      have eqA : parseLineItems ps t₁ s =
          parseItemsAux ps t₁ 0 ((splitChar ';' s).filter (fun x => trimStr x ≠ "")) := by
        simp only [parseLineItems]
        rw [if_neg h, if_neg hc]
      have eqB : parseLineItems ps t₂ s =
          parseItemsAux ps t₂ 0 ((splitChar ';' s).filter (fun x => trimStr x ≠ "")) := by
        simp only [parseLineItems]
        rw [if_neg h, if_neg hc2]
      rw [eqA, eqB]
      exact ⟨h1, h2⟩

theorem foldl_eq_of_map_eraseId (g : ℚ → LineItem → ℚ)
    (hg : ∀ (acc : ℚ) (a b : LineItem), eraseId a = eraseId b → g acc a = g acc b) :
    ∀ {l₁ l₂ : List LineItem}, l₁.map eraseId = l₂.map eraseId →
      ∀ acc : ℚ, l₁.foldl g acc = l₂.foldl g acc := by
  intro l₁
  induction l₁ with
  | nil =>
    intro l₂ h acc
    cases l₂ with
    | nil => rfl
    | cons b l => simp at h
  | cons a l ih =>
    intro l₂ h acc
    cases l₂ with
    | nil => simp at h
    | cons b l₂' =>
      simp only [List.map_cons, List.cons.injEq] at h
      simp only [List.foldl_cons]
      rw [hg acc a b h.1]
      exact ih h.2 _

theorem eraseId_quantity (it : LineItem) : (eraseId it).quantity = it.quantity := rfl

theorem eraseId_unitPrice (it : LineItem) : (eraseId it).unitPrice = it.unitPrice := rfl

theorem eraseId_discount (it : LineItem) : (eraseId it).discount = it.discount := rfl

theorem eraseId_total (it : LineItem) : (eraseId it).total = it.total := rfl

theorem sums_eq_of_map_eraseId {l₁ l₂ : List LineItem}
    (h : l₁.map eraseId = l₂.map eraseId) :
    sumSubtotal l₁ = sumSubtotal l₂ ∧ sumDiscount l₁ = sumDiscount l₂ ∧
      sumTotal l₁ = sumTotal l₂ := by
  refine ⟨?_, ?_, ?_⟩
  · exact foldl_eq_of_map_eraseId _ (fun acc a b hab => by
      rw [← eraseId_quantity a, ← eraseId_unitPrice a, hab, eraseId_quantity, eraseId_unitPrice]) h 0
  · exact foldl_eq_of_map_eraseId _ (fun acc a b hab => by
      rw [← eraseId_discount a, hab, eraseId_discount]) h 0
  · exact foldl_eq_of_map_eraseId _ (fun acc a b hab => by
      rw [← eraseId_total a, hab, eraseId_total]) h 0

theorem eraseId_idem (it : LineItem) : eraseId (eraseId it) = eraseId it := rfl

theorem map_map_eraseId (l : List LineItem) : (l.map eraseId).map eraseId = l.map eraseId := by
  rw [List.map_map]
  apply List.map_congr_left
  intro a _
  exact eraseId_idem a

theorem isEmpty_map_eraseId (l : List LineItem) : (l.map eraseId).isEmpty = l.isEmpty := by
  cases l <;> simp

theorem sumSubtotal_map_eraseId (l : List LineItem) : sumSubtotal (l.map eraseId) = sumSubtotal l := by
  simp [sumSubtotal, List.foldl_map, eraseId]

theorem sumDiscount_map_eraseId (l : List LineItem) : sumDiscount (l.map eraseId) = sumDiscount l := by
  simp [sumDiscount, List.foldl_map, eraseId]

theorem sumTotal_map_eraseId (l : List LineItem) : sumTotal (l.map eraseId) = sumTotal l := by
  simp [sumTotal, List.foldl_map, eraseId]

set_option maxRecDepth 4000 in
theorem salesRowRest_erase (pre : SalesData × List String) (liCell nCell : String)
    (liRes : List LineItem × List String) :
    (salesRowRest pre liCell (liRes.1.map eraseId, liRes.2) nCell).2 =
      (salesRowRest pre liCell liRes nCell).2 ∧
    eraseSD (salesRowRest pre liCell (liRes.1.map eraseId, liRes.2) nCell).1 =
      eraseSD (salesRowRest pre liCell liRes nCell).1 := by
  by_cases hc : liCell = ""
  · simp [salesRowRest, hc]
  · by_cases hemp : liRes.1 = []
    · simp [salesRowRest, hc, hemp, eraseSD, salesOrderSchemaErrors, map_map_eraseId,
            sumSubtotal_map_eraseId, sumDiscount_map_eraseId, sumTotal_map_eraseId,
            isEmpty_map_eraseId]
    · by_cases hn : nCell = "" <;>
        [skip; by_cases hnl : 1000 < nCell.length] <;>
        simp [salesRowRest, hc, hemp, hn, eraseSD, salesOrderSchemaErrors, map_map_eraseId,
              sumSubtotal_map_eraseId, sumDiscount_map_eraseId, sumTotal_map_eraseId,
              isEmpty_map_eraseId, eraseId_idem, *]

theorem salesParseRow_clock (cs : List Customer) (ps : List Product) (t₁ t₂ : Nat)
    (headers : List String) (i : Nat) (line : String) :
    eraseRowIds (salesParseRow cs ps t₁ headers i line) =
      eraseRowIds (salesParseRow cs ps t₂ headers i line) := by
  obtain ⟨h1, h2⟩ := parseLineItems_clock ps t₁ t₂
    (cellAt ((splitChar ',' line).map (fun v => stripQuotes (trimStr v)))
      (findHeaderIdx headers ["lineitems", "line_items", "items"]))
  have e₁ := salesRowRest_erase
    (salesRowPre cs headers ((splitChar ',' line).map (fun v => stripQuotes (trimStr v))))
    (cellAt ((splitChar ',' line).map (fun v => stripQuotes (trimStr v)))
      (findHeaderIdx headers ["lineitems", "line_items", "items"]))
    (cellAt ((splitChar ',' line).map (fun v => stripQuotes (trimStr v)))
      (findHeaderIdx headers ["notes", "note"]))
    (parseLineItems ps t₁
      (cellAt ((splitChar ',' line).map (fun v => stripQuotes (trimStr v)))
        (findHeaderIdx headers ["lineitems", "line_items", "items"])))
  have e₂ := salesRowRest_erase
    (salesRowPre cs headers ((splitChar ',' line).map (fun v => stripQuotes (trimStr v))))
    (cellAt ((splitChar ',' line).map (fun v => stripQuotes (trimStr v)))
      (findHeaderIdx headers ["lineitems", "line_items", "items"]))
    (cellAt ((splitChar ',' line).map (fun v => stripQuotes (trimStr v)))
      (findHeaderIdx headers ["notes", "note"]))
    (parseLineItems ps t₂
      (cellAt ((splitChar ',' line).map (fun v => stripQuotes (trimStr v)))
        (findHeaderIdx headers ["lineitems", "line_items", "items"])))
  rw [h1, h2] at e₁
  simp only [salesParseRow, eraseRowIds]
  rw [e₁.1.symm.trans e₂.1, e₁.2.symm.trans e₂.2]

theorem salesParseRows_clock (cs : List Customer) (ps : List Product) (t₁ t₂ : Nat)
    (headers : List String) :
    ∀ (ls : List String) (i : Nat),
      (salesParseRows cs ps t₁ headers i ls).map eraseRowIds =
      (salesParseRows cs ps t₂ headers i ls).map eraseRowIds := by
  intro ls
  induction ls with
  | nil => intro i; rfl
  | cons l rest ih =>
    intro i
    simp only [salesParseRows, List.map_cons]
    rw [salesParseRow_clock cs ps t₁ t₂ headers i l, ih (i + 1)]

/-- C5 as amended: parsing is a function of the input text, the loaded
reference data, and the platform clock the sales parser reads when minting
line-item ids.  The transactions parser does not read the clock at all, and
two runs of the sales-orders parser at any two clock readings produce
identical parsed rows once the synthetic line-item ids are erased — every
other field, including all totals and errors, is invocation-independent. -/
theorem sales_parse_pure_up_to_line_item_ids :
    ∀ (cs : List Customer) (ps : List Product) (t₁ t₂ : Nat) (text : String),
      (salesParseCSV cs ps t₁ text).map (fun rows => rows.map eraseRowIds) =
      (salesParseCSV cs ps t₂ text).map (fun rows => rows.map eraseRowIds) := by
  intro cs ps t₁ t₂ text
  simp only [salesParseCSV]
  split
  · rfl
  · simp only [Except.map]
    rw [salesParseRows_clock]

def c5Text : String :=
  "ordernumber,customername,date,lineitems" ++ "\n" ++ "SO-1,Acme,2024-01-15,Widget|1|5|0"

/-- The id of the first line item of the first parsed row. -/
def c5ItemId : Except String (List (ImportRow SalesData)) → String
  | .ok (r :: _) =>
    match r.data.lineItems with
    | some (it :: _) => it.id
    | _ => ""
  | _ => ""

set_option maxHeartbeats 2000000 in
/-- C5, counterexample: the sales-orders parser is not a pure function of
the text and reference data — parsing the same CSV at clock readings 0 and
1 yields different parsed-row structures, because each line item id embeds
the clock (Date.now). -/
theorem sales_parse_differs_across_clocks :
    salesParseCSV c8Customers c8Products 0 c5Text ≠
      salesParseCSV c8Customers c8Products 1 c5Text := by
  intro h
  have h2 := congrArg c5ItemId h
  have e0 : c5ItemId (salesParseCSV c8Customers c8Products 0 c5Text) =
      toString 0 ++ "-" ++ toString 0 := by
    simp [c5ItemId, c5Text, c8Customers, c8Products, salesParseCSV, salesParseRows,
          salesParseRow, salesRowPre, salesRowRest, parseLineItems, parseItemsAux,
          parseItemParts, splitChar, splitCharList, trimStr, lowerStr, stripQuotes, wsChar,
          cellAt, findHeaderIdx, customerLookup, productLookup, parseDateJS, parseIntJS,
          parseFloatQ, digitsToNat, salesStatuses, mkLineItem, lineItemSchemaErrors,
          salesOrderSchemaErrors, sumSubtotal, sumDiscount, sumTotal, containsStr,
          containsSub, isPrefixList, lineItemErr, String.length, List.cons_ne_nil]
    try norm_num
    try simp
  have e1 : c5ItemId (salesParseCSV c8Customers c8Products 1 c5Text) =
      toString 0 ++ "-" ++ toString 1 := by
    simp [c5ItemId, c5Text, c8Customers, c8Products, salesParseCSV, salesParseRows,
          salesParseRow, salesRowPre, salesRowRest, parseLineItems, parseItemsAux,
          parseItemParts, splitChar, splitCharList, trimStr, lowerStr, stripQuotes, wsChar,
          cellAt, findHeaderIdx, customerLookup, productLookup, parseDateJS, parseIntJS,
          parseFloatQ, digitsToNat, salesStatuses, mkLineItem, lineItemSchemaErrors,
          salesOrderSchemaErrors, sumSubtotal, sumDiscount, sumTotal, containsStr,
          containsSub, isPrefixList, lineItemErr, String.length, List.cons_ne_nil]
    try norm_num
    try simp
  rw [e0, e1] at h2
  exact absurd h2 (by decide)
